import Mathlib

/-!
Verification of the drswork/image metadata library core: shallow embeddings of
the JPEG APP2 ICC segment reassembler, the deferred metadata field accessors,
the PNG tEXt parser, the format registry wrapper and sniffing logic, and the
GIF comment reader, with theorems settling the specification's claims.

Byte buffers are modelled as List Nat (each element one byte value), Go's
nilable pointers and slices as Option, Go error returns as Option/Except, and
Go runtime panics as explicit outcome constructors.
-/

/-! ## JPEG ICC segment reassembly

Embedding of the ICC branch of decoder.processApp2 (jpeg/metadata.go).  The Go
method mutates the three metadata fields iccSegmentCount, iccSegmentsSeen and
rawIcc and returns an error value; we model it as a function from the state and
the parsed segment (its 1-based index byte, declared-count byte, and payload)
to the updated state paired with an optional error.
-/

namespace Jpeg

/-- One APP2 ICC segment as parsed by processApp2: index is buf at off+1,
count is buf at off+2, payload is buf from off+3 on. -/
structure IccSeg where
  index : Nat
  count : Nat
  payload : List Nat
  deriving DecidableEq, Repr

/-- The ICC reassembly fields of jpeg.Metadata: iccSegmentCount,
iccSegmentsSeen and rawIcc.  A Go nil slice and an empty slice are
indistinguishable under append, so rawIcc is a plain list. -/
structure IccState where
  iccSegmentCount : Nat
  iccSegmentsSeen : Nat
  rawIcc : List Nat
  deriving DecidableEq, Repr

/-- The two error returns of the ICC branch of processApp2. -/
inductive IccErr where
  | invalidSegmentCounts (orig now : Nat)
  | tooManySegments (want got : Nat)
  deriving DecidableEq, Repr

/-- The ICC branch of decoder.processApp2: record the declared count if none is
recorded yet, fail on a count mismatch, bump the seen counter, fail on
overflow, then fold the payload in (resetting the buffer when index is 1,
appending otherwise).  Mutations performed before an error return persist in
the returned state, as in the Go method. -/
def processApp2ICC (m : IccState) (seg : IccSeg) : IccState × Option IccErr :=
  let m1 := if m.iccSegmentCount = 0 then { m with iccSegmentCount := seg.count } else m
  if m1.iccSegmentCount ≠ seg.count then
    (m1, some (.invalidSegmentCounts m1.iccSegmentCount seg.count))
  else
    let m2 := { m1 with iccSegmentsSeen := m1.iccSegmentsSeen + 1 }
    if m2.iccSegmentsSeen > m2.iccSegmentCount then
      (m2, some (.tooManySegments m2.iccSegmentCount m2.iccSegmentsSeen))
    else
      ({ m2 with rawIcc := if seg.index = 1 then seg.payload else m2.rawIcc ++ seg.payload },
       none)

/-- The zero value of the ICC reassembly fields at the start of a decode. -/
def initIccState : IccState := ⟨0, 0, []⟩

/-- Feeding a stream of APP2 ICC segments to processApp2ICC; the decoder bails
out at the first error, as decode does when a process function fails. -/
def processApp2Segs : IccState → List IccSeg → IccState × Option IccErr
  | m, [] => (m, none)
  | m, seg :: rest =>
    match processApp2ICC m seg with
    | (m', none) => processApp2Segs m' rest
    | (m', some e) => (m', some e)

/-- Claim C1 (code bug evidence): feeding ICC segments with declared count 3 in
arrival order 2, 1, 3 (payloads [178], [177], [179]) makes processApp2 produce
the buffer [177, 179] — segment 1's arrival resets the buffer, discarding
segment 2's bytes, and segment 3 is appended — instead of the index-ordered
concatenation [177, 178, 179] the claim requires. -/
theorem processApp2_arrival_order_divergence :
    processApp2Segs initIccState [⟨2, 3, [178]⟩, ⟨1, 3, [177]⟩, ⟨3, 3, [179]⟩]
      = (⟨3, 3, [177, 179]⟩, none)
    ∧ ([177, 179] : List Nat) ≠ [177, 178, 179] := by
  exact ⟨rfl, by decide⟩

/-- Claim C2: the declared ICC segment count is fixed by the first segment
observed (from the initial state, one step records the segment's declared
count; once nonzero it is never changed); any later segment whose declared
count differs fails with the count-inconsistency error; a segment that would
make the seen counter exceed the declared count fails with the overflow
error; and in every error case the accumulated payload buffer is unchanged,
so the failing segment's payload is never folded in. -/
theorem processApp2_count_discipline :
    (∀ seg : IccSeg, ((processApp2ICC initIccState seg).1).iccSegmentCount = seg.count)
    ∧ (∀ (m : IccState) (seg : IccSeg), m.iccSegmentCount ≠ 0 →
        ((processApp2ICC m seg).1).iccSegmentCount = m.iccSegmentCount)
    ∧ (∀ (m : IccState) (seg : IccSeg), m.iccSegmentCount ≠ 0 →
        seg.count ≠ m.iccSegmentCount →
        processApp2ICC m seg
          = (m, some (.invalidSegmentCounts m.iccSegmentCount seg.count)))
    ∧ (∀ (m : IccState) (seg : IccSeg), m.iccSegmentCount ≠ 0 →
        seg.count = m.iccSegmentCount → m.iccSegmentCount ≤ m.iccSegmentsSeen →
        processApp2ICC m seg
          = ({ m with iccSegmentsSeen := m.iccSegmentsSeen + 1 },
             some (.tooManySegments m.iccSegmentCount (m.iccSegmentsSeen + 1))))
    ∧ (∀ (m : IccState) (seg : IccSeg), ((processApp2ICC m seg).2).isSome = true →
        ((processApp2ICC m seg).1).rawIcc = m.rawIcc) := by
  refine ⟨?_, ?_, ?_, ?_, ?_⟩
  · intro seg
    simp only [processApp2ICC, initIccState]
    split_ifs <;> simp_all
  · intro m seg h
    simp only [processApp2ICC, if_neg h]
    split_ifs <;> simp_all
  · intro m seg h hne
    have hne' : m.iccSegmentCount ≠ seg.count := fun hc => hne hc.symm
    simp only [processApp2ICC, if_neg h, if_pos hne']
  · intro m seg h heq hle
    have hne' : ¬m.iccSegmentCount ≠ seg.count := fun hc => hc heq.symm
    have hgt : m.iccSegmentsSeen + 1 > m.iccSegmentCount := Nat.lt_succ_of_le hle
    simp only [processApp2ICC, if_neg h, if_neg hne', if_pos hgt]
  · intro m seg
    simp only [processApp2ICC]
    split_ifs <;> simp

/-- Witness for processApp2_count_discipline: a mismatching declared count (4
after 3) fails with the inconsistency error and a 3rd segment after declared
count 2 fails with the overflow error, both leaving the buffer untouched. -/
theorem processApp2_count_discipline_witness :
    processApp2ICC ⟨3, 1, [9]⟩ ⟨2, 4, [7]⟩
      = (⟨3, 1, [9]⟩, some (.invalidSegmentCounts 3 4))
    ∧ processApp2ICC ⟨2, 2, [5]⟩ ⟨3, 2, [6]⟩
      = (⟨2, 3, [5]⟩, some (.tooManySegments 2 3)) :=
  ⟨processApp2_count_discipline.2.2.1 ⟨3, 1, [9]⟩ ⟨2, 4, [7]⟩ (by decide) (by decide),
   processApp2_count_discipline.2.2.2.1 ⟨2, 2, [5]⟩ ⟨3, 2, [6]⟩
     (by decide) (by decide) (by decide)⟩

end Jpeg

/-! ## Deferred metadata field accessors

Embedding of the lazy accessor pattern shared by png.Metadata.EXIF / XMP / ICC
and jpeg.Metadata.EXIF / XMP / ICC.  Each field is a triple of nilable slots
(cached decoded value, cached decode error, raw undecoded bytes); the accessor
checks them in that order and, when only raw bytes are present, calls the
registered sub-codec decode function.  The decode function returns a Go pair
(nilable value, nilable error), and the accessor result is the same shaped
pair.  The third component of the accessor's result counts how many times the
decode function was invoked (0 or 1), so that at-most-once decoding is
expressible.
-/

namespace Png

/-- The (exif, exifDecodeErr, rawExif) field triple of png.Metadata, identical
in shape to its xmp and icc triples and to the jpeg.Metadata triples.
V is the decoded value type (e.g. *metadata.EXIF) and E the error type. -/
structure FieldState (V E : Type) where
  value : Option V
  decodeErr : Option E
  raw : Option (List Nat)
  deriving DecidableEq, Repr

/-- The body of png Metadata.EXIF (identically XMP, ICC, and the jpeg
accessors): return the cached value if set, else the cached error if set, else
decode the raw bytes — caching the error (raw kept) on failure, or caching the
value and clearing raw on success — else report absent as (nil, nil).  Returns
(Go result pair, updated field state, number of decode invocations). -/
def fieldAccess {V E : Type} (dec : List Nat → Option V × Option E)
    (m : FieldState V E) : (Option V × Option E) × FieldState V E × Nat :=
  match m.value with
  | some v => ((some v, none), m, 0)
  | none =>
    match m.decodeErr with
    | some e => ((none, some e), m, 0)
    | none =>
      match m.raw with
      | some b =>
        match dec b with
        | (_, some e) => ((none, some e), ⟨none, some e, some b⟩, 1)
        | (x, none) => ((x, none), ⟨x, none, none⟩, 1)
      | none => ((none, none), m, 0)

/-- Claim C3: for any deferred field state and any registered decode function,
two successive accessor calls with no intervening Set invoke the decode
function at most once in total, the second call returns exactly the first
call's outcome, and the second call leaves the cached state unchanged. -/
theorem deferred_field_access_idempotent :
    ∀ (V E : Type) (dec : List Nat → Option V × Option E) (m : FieldState V E),
      (fieldAccess dec m).2.2 + (fieldAccess dec ((fieldAccess dec m).2.1)).2.2 ≤ 1
      ∧ (fieldAccess dec ((fieldAccess dec m).2.1)).1 = (fieldAccess dec m).1
      ∧ (fieldAccess dec ((fieldAccess dec m).2.1)).2.1 = (fieldAccess dec m).2.1 := by
  intro V E dec m
  rcases m with ⟨v, er, rw⟩
  cases v with
  | some v0 => simp [fieldAccess]
  | none =>
    cases er with
    | some e0 => simp [fieldAccess]
    | none =>
      cases rw with
      | none => simp [fieldAccess]
      | some b =>
        rcases hd : dec b with ⟨x, e⟩
        cases e with
        | some e0 => simp [fieldAccess, hd]
        | none =>
          cases x with
          | some x0 => simp [fieldAccess, hd]
          | none => simp [fieldAccess, hd]

/-- Witness for deferred_field_access_idempotent at a concrete Raw field whose
decode succeeds. -/
theorem deferred_field_access_idempotent_witness :
    ((fieldAccess (fun _ => (some 3, (none : Option Nat)))
        (⟨none, none, some [1]⟩ : FieldState Nat Nat)).2.2
      + (fieldAccess (fun _ => (some 3, (none : Option Nat)))
          ((fieldAccess (fun _ => (some 3, (none : Option Nat)))
            (⟨none, none, some [1]⟩ : FieldState Nat Nat)).2.1)).2.2 ≤ 1)
    ∧ (fieldAccess (fun _ => (some 3, (none : Option Nat)))
        ((fieldAccess (fun _ => (some 3, (none : Option Nat)))
          (⟨none, none, some [1]⟩ : FieldState Nat Nat)).2.1)).1
      = (fieldAccess (fun _ => (some 3, (none : Option Nat)))
          (⟨none, none, some [1]⟩ : FieldState Nat Nat)).1
    ∧ (fieldAccess (fun _ => (some 3, (none : Option Nat)))
        ((fieldAccess (fun _ => (some 3, (none : Option Nat)))
          (⟨none, none, some [1]⟩ : FieldState Nat Nat)).2.1)).2.1
      = (fieldAccess (fun _ => (some 3, (none : Option Nat)))
          (⟨none, none, some [1]⟩ : FieldState Nat Nat)).2.1 :=
  deferred_field_access_idempotent Nat Nat (fun _ => (some 3, none))
    ⟨none, none, some [1]⟩

/-- Claim C4 counterexample: a Raw field whose decode fails returns the error,
yet the updated field still retains the raw byte buffer — the raw bytes are
not discarded on failure, contrary to the claim. -/
theorem deferred_field_failed_decode_keeps_raw_cex :
    (fieldAccess (fun _ => ((none : Option Nat), some 7))
        (⟨none, none, some [1, 2, 3]⟩ : FieldState Nat Nat)).1 = (none, some 7)
    ∧ (fieldAccess (fun _ => ((none : Option Nat), some 7))
        (⟨none, none, some [1, 2, 3]⟩ : FieldState Nat Nat)).2.1.raw
      = some [1, 2, 3] := by
  exact ⟨rfl, rfl⟩

/-- Claim C4 (amended): a failed lazy decode caches the error and transitions
the field to the Failed state but RETAINS the raw byte buffer (only the error
slot changes); a successful decode caches the value and discards the raw
bytes. -/
theorem deferred_field_failed_decode_retains_raw :
    (∀ (V E : Type) (dec : List Nat → Option V × Option E) (m : FieldState V E)
        (b : List Nat) (e : E),
        m.value = none → m.decodeErr = none → m.raw = some b → (dec b).2 = some e →
        fieldAccess dec m = ((none, some e), ⟨none, some e, some b⟩, 1))
    ∧ (∀ (V E : Type) (dec : List Nat → Option V × Option E) (m : FieldState V E)
        (b : List Nat) (x : Option V),
        m.value = none → m.decodeErr = none → m.raw = some b → dec b = (x, none) →
        fieldAccess dec m = ((x, none), ⟨x, none, none⟩, 1)) := by
  constructor
  · intro V E dec m b e hv he hr hd
    rcases m with ⟨v, er, rw⟩
    cases hv; cases he; cases hr
    rcases hdb : dec b with ⟨x0, e0⟩
    rw [hdb] at hd
    cases hd
    simp [fieldAccess, hdb]
  · intro V E dec m b x hv he hr hd
    rcases m with ⟨v, er, rw⟩
    cases hv; cases he; cases hr
    simp [fieldAccess, hd]

/-- Witness for deferred_field_failed_decode_retains_raw: a concrete failing
decode keeps the raw bytes, a concrete succeeding decode discards them. -/
theorem deferred_field_failed_decode_retains_raw_witness :
    fieldAccess (fun _ => ((none : Option Nat), some 5))
        (⟨none, none, some [9]⟩ : FieldState Nat Nat)
      = ((none, some 5), ⟨none, some 5, some [9]⟩, 1)
    ∧ fieldAccess (fun _ => (some 4, (none : Option Nat)))
        (⟨none, none, some [9]⟩ : FieldState Nat Nat)
      = ((some 4, none), ⟨some 4, none, none⟩, 1) :=
  ⟨deferred_field_failed_decode_retains_raw.1 Nat Nat (fun _ => (none, some 5))
      ⟨none, none, some [9]⟩ [9] 5 rfl rfl rfl rfl,
   deferred_field_failed_decode_retains_raw.2 Nat Nat (fun _ => (some 4, none))
      ⟨none, none, some [9]⟩ [9] (some 4) rfl rfl rfl rfl⟩

/-! ## PNG tEXt chunk parsing (png/metadata.go, decoder.parseTEXT) -/

/-- The PNG text entry storage-mode tags (png TextType). -/
inductive TextType where
  | EtText
  | EtZtext
  | EtUtext
  deriving DecidableEq, Repr

/-- png.TextEntry: key, value, storage-mode tag, language tag, translated
key.  Strings are byte lists. -/
structure TextEntry where
  Key : List Nat
  Value : List Nat
  EntryType : TextType
  LanguageTag : List Nat
  TranslatedKey : List Nat
  deriving DecidableEq, Repr

/-- png.FormatError. -/
inductive PngError where
  | FormatError (msg : String)
  deriving DecidableEq, Repr

/-- The entry construction of decoder.parseTEXT on the chunk payload buf (the
first length bytes of d.tmp): find the first null separator (error if none);
the key is everything before it; the value is assigned from the bytes after
the separator only under the condition sep + 1 >= length that the source
tests, and otherwise stays the empty string; the entry is tagged EtText. -/
def parseTEXT (buf : List Nat) : Except PngError TextEntry :=
  match buf.findIdx? (fun b => b == 0) with
  | none => .error (.FormatError "no text separator found")
  | some sep =>
    let key := buf.take sep
    let val := if sep + 1 ≥ buf.length then buf.drop (sep + 1) else []
    .ok ⟨key, val, .EtText, [], []⟩

/-- Modelled from the spec: the PNG text-chunk writer is not under src (only
its tests are).  Per the persisted-layout contract (a tEXt record stores the
key, a null separator, then the value) a plain-text entry's chunk payload is
the key bytes, one zero byte, then the value bytes. -/
def writeTEXTPayload (key val : List Nat) : List Nat := key ++ 0 :: val

/-- The bytes of the key Composer. -/
def composerKey : List Nat := [67, 111, 109, 112, 111, 115, 101, 114]

/-- The bytes of the value Test. -/
def testValue : List Nat := [84, 101, 115, 116]

/-- Claim C5 (code bug evidence): parsing the tEXt payload written for the
plain-text entry with key Composer and value Test yields an entry with the
right key and storage-mode tag but an EMPTY value — the reversed length test
in parseTEXT only assigns the value when there is nothing after the
separator, so the non-empty value Test is dropped and the round trip of the
repository's own writer test fails. -/
theorem parseTEXT_drops_nonempty_value :
    parseTEXT (writeTEXTPayload composerKey testValue)
      = .ok ⟨composerKey, [], .EtText, [], []⟩
    ∧ ([] : List Nat) ≠ testValue := by
  exact ⟨rfl, by decide⟩

end Png

/-! ## Core image package: options model, RegisterFormat wrapper, registry

Embedding of the decode-options model, the adapter decode function built by
RegisterFormat, and the format registry with sniffing, from the core image
package file.
-/

namespace Core

/-- image.DecodingOption. -/
inductive DecodingOption where
  | DefaultDecodeOption
  | DiscardData
  | DeferData
  | DecodeData
  deriving DecidableEq, Repr

/-- image.DataDecodeOptions. -/
structure DataDecodeOptions where
  DecodeImage : DecodingOption
  DecodeMetadata : DecodingOption
  deriving DecidableEq, Repr

/-- The closed set of core read-option record kinds: DataDecodeOptions,
LimitOptions, DamageHandlingOptions and ImageTransformOptions, each carrying
its fields. -/
inductive ReadOption where
  | dataDecode (o : DataDecodeOptions)
  | limits (maxImageSize maxMetadataSize : Nat)
  | damage (allowTrailingData skipDamagedData allowMisorderedData : Bool)
  | transforms (rotation colorAxis gamma : Int)
  deriving DecidableEq, Repr

/-- Go error values returned by the core package: the ErrOption and ErrFormat
sentinels and fresh message errors. -/
inductive GoErr where
  | errOption
  | errFormat
  | errMsg (msg : String)
  deriving DecidableEq, Repr

/-- Outcome of the decode function RegisterFormat constructs: a runtime panic
from dereferencing the nil ro pointer, an error return, or a successful
return of the nilable image and the nilable metadata config. -/
inductive WrapResult (Img Conf : Type) where
  | panicNilDeref
  | errRes (e : GoErr)
  | okRes (img : Option Img) (conf : Option Conf)
  deriving DecidableEq, Repr

/-- The option-scanning loop of the RegisterFormat adapter: run through the
passed-in options; each DataDecodeOptions record is stored in ro, and a
second one found while ro is already set returns ErrOption; every other
option kind is ignored. -/
def extractDataDecode : List ReadOption → Option DataDecodeOptions →
    Except GoErr (Option DataDecodeOptions)
  | [], ro => .ok ro
  | o :: rest, ro =>
    match o with
    | .dataDecode iro =>
      match ro with
      | some _ => .error .errOption
      | none => extractDataDecode rest (some iro)
    | _ => extractDataDecode rest ro

/-- The decode adapter RegisterFormat builds around a legacy (decode,
decodeConfig) pair.  decode is modelled by the result it would produce on the
stream, decodeConfig by its nilable result (nil models a nil function
pointer).  After the option scan the adapter dereferences ro without a nil
check — a decode call whose option list contains no DataDecodeOptions record
panics.  Then: DeferData for the image body is ErrOption; requesting metadata
with a nil decodeConfig is a message error; the image is decoded for
DefaultDecodeOption or DecodeData; the config is decoded when metadata
decode is requested and a config decoder exists. -/
def registerFormatDecode (Img Conf : Type) (decode : Except GoErr Img)
    (decodeConfig : Option (Except GoErr Conf)) (opts : List ReadOption) :
    WrapResult Img Conf :=
  match extractDataDecode opts none with
  | .error e => .errRes e
  | .ok none => .panicNilDeref
  | .ok (some ro) =>
    if ro.DecodeImage = .DeferData then .errRes .errOption
    else if ro.DecodeMetadata ≠ .DiscardData ∧ decodeConfig.isNone then
      .errRes (.errMsg
        "image: metdata decode requested with no metadata decoding function available")
    else
      match (if ro.DecodeImage = .DefaultDecodeOption ∨ ro.DecodeImage = .DecodeData
             then decode.map some else .ok none) with
      | .error e => .errRes e
      | .ok id =>
        match decodeConfig with
        | some dc =>
          if ro.DecodeMetadata ≠ .DiscardData then
            match dc with
            | .error e => .errRes e
            | .ok cd => .okRes id (some cd)
          else .okRes id none
        | none => .okRes id none

/-- The DataDecodeOptions records of an option list, in order (the records
the adapter's scan classifies as its own kind). -/
def dataDecodes : List ReadOption → List DataDecodeOptions
  | [] => []
  | .dataDecode d :: rest => d :: dataDecodes rest
  | _ :: rest => dataDecodes rest

/-- The option scan is determined by the DataDecodeOptions records present:
with none it keeps the incoming ro, with exactly one (and no incoming ro) it
records that one, and in every other case it returns ErrOption. -/
theorem extractDataDecode_eq (opts : List ReadOption) :
    ∀ ro : Option DataDecodeOptions,
      extractDataDecode opts ro =
        match ro, dataDecodes opts with
        | none, [] => .ok none
        | none, [d] => .ok (some d)
        | some d, [] => .ok (some d)
        | _, _ => .error .errOption := by
  induction opts with
  | nil => intro ro; cases ro <;> rfl
  | cons o rest ih =>
    intro ro
    cases o with
    | dataDecode d =>
      cases ro with
      | some d0 =>
        simp only [extractDataDecode, dataDecodes]
      | none =>
        rw [show extractDataDecode (ReadOption.dataDecode d :: rest) none
              = extractDataDecode rest (some d) from rfl]
        rw [ih (some d)]
        cases hdr : dataDecodes rest <;>
          simp only [dataDecodes, hdr]
    | limits a b =>
      cases ro <;>
        simpa only [dataDecodes] using ih _
    | damage a b c =>
      cases ro <;>
        simpa only [dataDecodes] using ih _
    | transforms a b c =>
      cases ro <;>
        simpa only [dataDecodes] using ih _

/-- The scan returns nil when no DataDecodeOptions record is present. -/
theorem extractDataDecode_none (opts : List ReadOption)
    (h : dataDecodes opts = []) : extractDataDecode opts none = .ok none := by
  rw [extractDataDecode_eq opts none, h]

/-- The scan returns the sole DataDecodeOptions record when exactly one is
present. -/
theorem extractDataDecode_one (opts : List ReadOption) (d : DataDecodeOptions)
    (h : dataDecodes opts = [d]) : extractDataDecode opts none = .ok (some d) := by
  rw [extractDataDecode_eq opts none, h]

/-- The scan fails with ErrOption when two or more DataDecodeOptions records
are present. -/
theorem extractDataDecode_many (opts : List ReadOption) (d d2 : DataDecodeOptions)
    (tail : List DataDecodeOptions) (h : dataDecodes opts = d :: d2 :: tail) :
    extractDataDecode opts none = .error .errOption := by
  rw [extractDataDecode_eq opts none, h]

/-- Claim C6 (code bug evidence): a decode call through the RegisterFormat
adapter whose option list is empty does not succeed with default behavior —
the option scan leaves ro nil and the adapter dereferences it, a runtime
nil-pointer panic, whatever the underlying decode and decodeConfig return. -/
theorem registerFormat_no_options_panics :
    ∀ (Img Conf : Type) (decode : Except GoErr Img)
      (decodeConfig : Option (Except GoErr Conf)),
      registerFormatDecode Img Conf decode decodeConfig [] = .panicNilDeref := by
  intro Img Conf decode decodeConfig
  rfl

/-- Witness for registerFormat_no_options_panics at concrete types and
decoders. -/
theorem registerFormat_no_options_panics_witness :
    registerFormatDecode Nat Nat (.ok 0) (some (.ok 1)) [] = .panicNilDeref :=
  registerFormat_no_options_panics Nat Nat (.ok 0) (some (.ok 1))

/-- Claim C7 counterexample: an option list with two LimitOptions records —
more than one option record of the same kind, hence ill-formed under the
spec's option model — is not rejected: the adapter decodes successfully
instead of failing with ErrOption. -/
theorem registerFormat_duplicate_limits_not_rejected :
    registerFormatDecode Nat Nat (.ok 0) none
        [.dataDecode ⟨.DecodeData, .DiscardData⟩, .limits 1 1, .limits 2 2]
      = .okRes (some 0) none
    ∧ (.okRes (some 0) none : WrapResult Nat Nat) ≠ .errRes .errOption := by
  exact ⟨rfl, by decide⟩

/-- Claim C7 (amended): provided the wrapped decode and decodeConfig do not
themselves return the ErrOption sentinel, the RegisterFormat adapter fails
with ErrOption exactly when the option list contains two or more
DataDecodeOptions records, or exactly one DataDecodeOptions record and it
requests DeferData for the image body.  Duplicate records of the other
option kinds are not rejected, and a list with no DataDecodeOptions record
panics instead of failing. -/
theorem registerFormat_errOption_iff :
    ∀ (Img Conf : Type) (decode : Except GoErr Img)
      (decodeConfig : Option (Except GoErr Conf)) (opts : List ReadOption),
      decode ≠ .error .errOption →
      (∀ dc, decodeConfig = some dc → dc ≠ .error .errOption) →
      (registerFormatDecode Img Conf decode decodeConfig opts = .errRes .errOption ↔
        2 ≤ (dataDecodes opts).length
        ∨ ∃ d, dataDecodes opts = [d] ∧ d.DecodeImage = .DeferData) := by
  intro Img Conf decode decodeConfig opts hd hc
  cases hdd : dataDecodes opts with
  | nil =>
    simp [registerFormatDecode, extractDataDecode_none opts hdd]
  | cons d tail =>
    cases tail with
    | nil =>
      simp only [registerFormatDecode, extractDataDecode_one opts d hdd]
      by_cases hdef : d.DecodeImage = .DeferData
      · simp only [if_pos hdef]
        constructor
        · intro _
          exact Or.inr ⟨d, rfl, hdef⟩
        · intro _
          trivial
      · simp only [if_neg hdef]
        constructor
        · intro h
          exfalso
          cases decode with
          | error e =>
            have he : e ≠ GoErr.errOption := fun hEq => hd (by rw [hEq])
            cases decodeConfig with
            | none => split_ifs at h <;> simp_all [Except.map]
            | some dc =>
              cases dc with
              | error e2 =>
                have he2 : e2 ≠ GoErr.errOption := fun hEq =>
                  hc (.error e2) rfl (by rw [hEq])
                split_ifs at h <;> simp_all [Except.map]
              | ok c => split_ifs at h <;> simp_all [Except.map]
          | ok v =>
            cases decodeConfig with
            | none => split_ifs at h <;> simp_all [Except.map]
            | some dc =>
              cases dc with
              | error e2 =>
                have he2 : e2 ≠ GoErr.errOption := fun hEq =>
                  hc (.error e2) rfl (by rw [hEq])
                split_ifs at h <;> simp_all [Except.map]
              | ok c => split_ifs at h <;> simp_all [Except.map]
        · intro h
          exfalso
          rcases h with h2 | ⟨d', hd', hdef'⟩
          · simp at h2
          · have hde : d = d' := by
              simpa using hd'
            exact hdef (hde ▸ hdef')
    | cons d2 tail2 =>
      simp only [registerFormatDecode, extractDataDecode_many opts d d2 tail2 hdd]
      constructor
      · intro _
        exact Or.inl (Nat.le_add_left 2 tail2.length)
      · intro _
        trivial

/-- Witness for registerFormat_errOption_iff: a single DataDecodeOptions
record requesting DeferData for the image body is rejected with ErrOption. -/
theorem registerFormat_errOption_iff_witness :
    registerFormatDecode Nat Nat (.ok 0) none
        [.dataDecode ⟨.DeferData, .DiscardData⟩]
      = .errRes .errOption :=
  (registerFormat_errOption_iff Nat Nat (.ok 0) none
      [.dataDecode ⟨.DeferData, .DiscardData⟩]
      (fun h => nomatch h) (fun _ h => nomatch h)).mpr
    (Or.inr ⟨⟨.DeferData, .DiscardData⟩, rfl, rfl⟩)

end Core

/-! ## Sub-codec registry (metadata/exif.go, metadata/icc.go)

metadata.DecodeEXIF and metadata.DecodeICC consult a nilable package-level
registered decoder and return the typed no-registered-decoder error when it is
nil.  Errors are modelled as the Go error strings.  A metadata object's EXIF
and ICC deferred fields are independent slots, so a failure on one accessor
cannot affect the other.
-/

namespace MetaPkg

/-- metadata.DecodeEXIF: with no registered decoder it returns the typed
error; otherwise it calls the registered decoder on the bytes. -/
def DecodeEXIF (V : Type) (exifDecoder : Option (List Nat → Option V × Option String))
    (b : List Nat) : Option V × Option String :=
  match exifDecoder with
  | none => (none, some "No registered EXIF decoder")
  | some d => d b

/-- metadata.DecodeICC: with no registered decoder it returns the typed
error; otherwise it calls the registered decoder on the bytes. -/
def DecodeICC (V : Type) (iccDecoder : Option (List Nat → Option V × Option String))
    (b : List Nat) : Option V × Option String :=
  match iccDecoder with
  | none => (none, some "No registered ICC decoder")
  | some d => d b

/-- metadata.DecodeXMP: with no registered decoder it returns the typed
error; otherwise it calls the registered decoder on the bytes. -/
def DecodeXMP (V : Type) (xmpDecoder : Option (List Nat → Option V × Option String))
    (b : List Nat) : Option V × Option String :=
  match xmpDecoder with
  | none => (none, some "No registered XMP decoder")
  | some d => d b

/-- The EXIF and ICC deferred-field slots of one metadata object (png or
jpeg), the two fields the claim's independence property concerns. -/
structure MetaFields (VE VI : Type) where
  exifF : Png.FieldState VE String
  iccF : Png.FieldState VI String
  deriving DecidableEq, Repr

/-- Metadata.EXIF on the whole metadata object: run the deferred accessor
with metadata.DecodeEXIF over the registered decoder, updating only the EXIF
slots. -/
def metaEXIF (VE VI : Type) (reg : Option (List Nat → Option VE × Option String))
    (m : MetaFields VE VI) : (Option VE × Option String) × MetaFields VE VI :=
  ((Png.fieldAccess (DecodeEXIF VE reg) m.exifF).1,
   { m with exifF := (Png.fieldAccess (DecodeEXIF VE reg) m.exifF).2.1 })

/-- Metadata.ICC on the whole metadata object: run the deferred accessor with
metadata.DecodeICC over the registered decoder, updating only the ICC
slots. -/
def metaICC (VE VI : Type) (reg : Option (List Nat → Option VI × Option String))
    (m : MetaFields VE VI) : (Option VI × Option String) × MetaFields VE VI :=
  ((Png.fieldAccess (DecodeICC VI reg) m.iccF).1,
   { m with iccF := (Png.fieldAccess (DecodeICC VI reg) m.iccF).2.1 })

/-- Claim C8: with no decoder registered for a kind, the decode entry point
returns the typed no-registered-decoder error; accessing a Raw field of that
kind surfaces exactly that error from the accessor (as an error value, not an
abort); an EXIF access never touches the ICC slots of the same metadata
object; and after a failed EXIF access, an ICC access whose decoder is
registered and succeeds still returns the decoded ICC value. -/
theorem no_registered_decoder_behavior :
    (∀ (V : Type) (b : List Nat),
        DecodeEXIF V none b = (none, some "No registered EXIF decoder"))
    ∧ (∀ (V : Type) (b : List Nat),
        DecodeICC V none b = (none, some "No registered ICC decoder"))
    ∧ (∀ (V : Type) (b : List Nat),
        DecodeXMP V none b = (none, some "No registered XMP decoder"))
    ∧ (∀ (VE VI : Type) (m : MetaFields VE VI) (b : List Nat),
        m.exifF = ⟨none, none, some b⟩ →
        (metaEXIF VE VI none m).1 = (none, some "No registered EXIF decoder"))
    ∧ (∀ (VE VI : Type) (reg : Option (List Nat → Option VE × Option String))
        (m : MetaFields VE VI), (metaEXIF VE VI reg m).2.iccF = m.iccF)
    ∧ (∀ (VE VI : Type) (regE : Option (List Nat → Option VE × Option String))
        (regI : List Nat → Option VI × Option String) (m : MetaFields VE VI)
        (b : List Nat) (v : VI),
        m.iccF = ⟨none, none, some b⟩ → regI b = (some v, none) →
        (metaICC VE VI (some regI) ((metaEXIF VE VI regE m).2)).1 = (some v, none)) := by
  refine ⟨?_, ?_, ?_, ?_, ?_, ?_⟩
  · intro V b
    rfl
  · intro V b
    rfl
  · intro V b
    rfl
  · intro VE VI m b hraw
    simp [metaEXIF, hraw, Png.fieldAccess, DecodeEXIF]
  · intro VE VI reg m
    rfl
  · intro VE VI regE regI m b v hraw hdec
    have hicc : ((metaEXIF VE VI regE m).2).iccF = ⟨none, none, some b⟩ := by
      rw [show (metaEXIF VE VI regE m).2.iccF = m.iccF from rfl, hraw]
    simp [metaICC, hicc, Png.fieldAccess, DecodeICC, hdec]

/-- Witness for no_registered_decoder_behavior: on a concrete metadata object
with Raw EXIF and Raw ICC bytes, an EXIF access with nothing registered
returns the typed error and a subsequent ICC access with a registered,
succeeding decoder returns the decoded value. -/
theorem no_registered_decoder_behavior_witness :
    (metaEXIF Nat Nat none
        (⟨⟨none, none, some [1]⟩, ⟨none, none, some [2]⟩⟩ : MetaFields Nat Nat)).1
      = (none, some "No registered EXIF decoder")
    ∧ (metaICC Nat Nat (some (fun _ => (some 3, none)))
        ((metaEXIF Nat Nat none
          (⟨⟨none, none, some [1]⟩, ⟨none, none, some [2]⟩⟩ : MetaFields Nat Nat)).2)).1
      = (some 3, none) :=
  ⟨no_registered_decoder_behavior.2.2.2.1 Nat Nat
      ⟨⟨none, none, some [1]⟩, ⟨none, none, some [2]⟩⟩ [1] rfl,
   no_registered_decoder_behavior.2.2.2.2.2 Nat Nat none (fun _ => (some 3, none))
      ⟨⟨none, none, some [1]⟩, ⟨none, none, some [2]⟩⟩ [2] 3 rfl rfl⟩

end MetaPkg

/-! ## Format registry sniffing, DecodeWithOptions and DecodeConfig -/

namespace Core

/-- An entry of the format registry (image.format): name, magic pattern
bytes (63, the question mark, is the wildcard), and the nilable decode
function.  The decode function is modelled by the result it produces from
the stream and options; for a registered entry it is non-nil, while the zero
value format has a nil decode. -/
structure Format (Img Conf : Type) where
  name : String
  magic : List Nat
  decode : Option (List ReadOption → Except GoErr (Option Img × Option Conf))

/-- The zero value of the format structure, returned by sniff when no magic
matches. -/
def zeroFormat (Img Conf : Type) : Format Img Conf := ⟨"", [], none⟩

/-- image.match: lengths must agree and each magic byte must equal the input
byte or be the wildcard 63. -/
def matchMagic : List Nat → List Nat → Bool
  | [], [] => true
  | mc :: ms, c :: bs => (mc == c || mc == 63) && matchMagic ms bs
  | _, _ => false

/-- bufio Peek on a byte stream: the first n bytes, or an error (none) when
fewer than n bytes are available. -/
def peek (s : List Nat) (n : Nat) : Option (List Nat) :=
  if n ≤ s.length then some (s.take n) else none

/-- image.sniff: return the first registered format whose magic peeks and
matches; the zero-value format when none does. -/
def sniff (Img Conf : Type) : List (Format Img Conf) → List Nat → Format Img Conf
  | [], _ => zeroFormat Img Conf
  | f :: rest, s =>
    match peek s f.magic.length with
    | some b => if matchMagic f.magic b then f else sniff Img Conf rest s
    | none => sniff Img Conf rest s

/-- The observable outcome of a top-level decode call: a runtime panic from
invoking a nil decode function, an error return, or success. -/
inductive DecodeOutcome (Img Conf : Type) where
  | panicNilFunc
  | errOut (e : GoErr)
  | okOut (img : Option Img) (conf : Option Conf) (name : String)
  deriving DecidableEq, Repr

/-- image.DecodeWithOptions: sniff, return ErrFormat when the sniffed format
has a nil decode function, otherwise run it. -/
def DecodeWithOptionsM (Img Conf : Type) (formats : List (Format Img Conf))
    (s : List Nat) (opts : List ReadOption) : DecodeOutcome Img Conf :=
  match (sniff Img Conf formats s).decode with
  | none => .errOut .errFormat
  | some d =>
    match d opts with
    | .error e => .errOut e
    | .ok (i, c) => .okOut i c (sniff Img Conf formats s).name

/-- image.DecodeConfig: sniff and invoke the sniffed format's decode function
with DataDecodeOptions{DiscardData, DeferData}, with no nil check — when no
format matched, the zero-value format's nil decode function is invoked,
which is a runtime panic. -/
def DecodeConfigM (Img Conf : Type) (formats : List (Format Img Conf))
    (s : List Nat) : DecodeOutcome Img Conf :=
  match (sniff Img Conf formats s).decode with
  | none => .panicNilFunc
  | some d =>
    match d [.dataDecode ⟨.DiscardData, .DeferData⟩] with
    | .error e => .errOut e
    | .ok (i, c) => .okOut i c (sniff Img Conf formats s).name

/-- The sniff loop's per-format test, as a whole-registry check: no
registered format's magic peeks successfully and matches the stream. -/
def noMagicMatch (Img Conf : Type) (formats : List (Format Img Conf))
    (s : List Nat) : Bool :=
  formats.all fun f =>
    match peek s f.magic.length with
    | some b => !(matchMagic f.magic b)
    | none => true

/-- When no magic matches, sniff returns the zero-value format. -/
theorem sniff_noMatch (Img Conf : Type) (formats : List (Format Img Conf))
    (s : List Nat) (h : noMagicMatch Img Conf formats s = true) :
    sniff Img Conf formats s = zeroFormat Img Conf := by
  induction formats with
  | nil => rfl
  | cons f rest ih =>
    simp only [noMagicMatch, List.all_cons, Bool.and_eq_true] at h
    obtain ⟨hf, hrest⟩ := h
    simp only [sniff]
    cases hp : peek s f.magic.length with
    | none => exact ih hrest
    | some b =>
      rw [hp] at hf
      simp only [Bool.not_eq_true'] at hf
      simp [hf, ih hrest]

/-- Claim C9: on a stream whose prefix matches no registered format's magic,
DecodeWithOptions returns the ErrFormat sentinel, while DecodeConfig performs
no nil check on the sniff result and invokes the zero-value format's nil
decode function — a runtime panic — instead of returning an error. -/
theorem decodeConfig_unknown_format_panics :
    ∀ (Img Conf : Type) (formats : List (Format Img Conf)) (s : List Nat)
      (opts : List ReadOption),
      noMagicMatch Img Conf formats s = true →
      DecodeConfigM Img Conf formats s = .panicNilFunc
      ∧ DecodeWithOptionsM Img Conf formats s opts = .errOut .errFormat := by
  intro Img Conf formats s opts h
  have hs := sniff_noMatch Img Conf formats s h
  constructor
  · rw [DecodeConfigM]
    split
    · rfl
    · rename_i d hd
      rw [hs] at hd
      exact absurd hd (by simp [zeroFormat])
  · rw [DecodeWithOptionsM]
    split
    · rfl
    · rename_i d hd
      rw [hs] at hd
      exact absurd hd (by simp [zeroFormat])

/-- Witness for decodeConfig_unknown_format_panics: one registered format
whose two magic bytes do not match the concrete stream. -/
theorem decodeConfig_unknown_format_panics_witness :
    DecodeConfigM Nat Nat [⟨"png", [137, 80], some (fun _ => .ok (none, none))⟩] [0, 1, 2]
      = .panicNilFunc
    ∧ DecodeWithOptionsM Nat Nat [⟨"png", [137, 80], some (fun _ => .ok (none, none))⟩]
        [0, 1, 2] [] = .errOut .errFormat :=
  decodeConfig_unknown_format_panics Nat Nat
    [⟨"png", [137, 80], some (fun _ => .ok (none, none))⟩] [0, 1, 2] [] rfl

end Core

/-! ## GIF comment extension reading (gif/metadata.go, decoder.readComment) -/

namespace Gif

/-- How a run of decoder.readComment can end, relative to the finite sequence
of readBlock results the stream provides: an error return from readBlock (the
only return statement inside the loop), exhaustion of the provided reads with
the loop still running (the loop has no break, so it calls readBlock again
past the comment's terminator sub-block), or the function's final
save-the-comment return — which the theorem shows is never reached. -/
inductive CommentOutcome where
  | returnedErr (e : String)
  | stillLooping
  | savedComment (c : List Nat)
  deriving DecidableEq, Repr

/-- The body of decoder.readComment: loop forever over readBlock results,
returning on a readBlock error and otherwise appending the block's bytes to
the comment accumulator.  A zero-length block (the GIF sub-block terminator,
readBlock result ok []) takes the same append-and-continue path as any other
block, because the loop contains no terminator test and no break. -/
def readCommentLoop : List (Except String (List Nat)) → List Nat → CommentOutcome
  | [], _ => .stillLooping
  | .error e :: _, _ => .returnedErr e
  | .ok blk :: rest, c => readCommentLoop rest (c ++ blk)

/-- decoder.readComment applied to the readBlock results the stream will
produce, starting from the empty accumulator. -/
def readComment (reads : List (Except String (List Nat))) : CommentOutcome :=
  readCommentLoop reads []

/-- Every outcome of the loop is an error return or continued looping. -/
theorem readCommentLoop_never_saves :
    ∀ (reads : List (Except String (List Nat))) (c : List Nat),
      (∃ e, readCommentLoop reads c = .returnedErr e)
      ∨ readCommentLoop reads c = .stillLooping := by
  intro reads
  induction reads with
  | nil => intro c; exact Or.inr rfl
  | cons r rest ih =>
    intro c
    cases r with
    | error e => exact Or.inl ⟨e, rfl⟩
    | ok blk => exact ih (c ++ blk)

/-- Claim C10: decoder.readComment never reaches the statement that appends
the assembled comment to Metadata.Comments — every execution either returns a
readBlock error or keeps looping — and in particular on a well-formed comment
(one data sub-block then the zero-length terminator, both read without error)
the loop runs past the terminator still demanding input instead of
terminating. -/
theorem readComment_never_saves :
    (∀ reads : List (Except String (List Nat)),
      (∃ e, readComment reads = .returnedErr e) ∨ readComment reads = .stillLooping)
    ∧ readComment [.ok [1, 2], .ok []] = .stillLooping := by
  constructor
  · intro reads
    exact readCommentLoop_never_saves reads []
  · rfl

end Gif
